import Mathlib

/-!
Shallow embedding of the toolpath synthesis engine of `src/cncapp/gcode.py`.

Python floats are modelled as exact rationals (`ℚ`); emitted G-code lines are
modelled as structured instructions (`Instr`) carrying the unrounded numeric
arguments, with the purely textual number formatting (`_fmt`, `_fmt_i`)
abstracted away.  The one fallible operation in the source — the float
division `remaining / peck_step`, which raises `ZeroDivisionError` in Python
when `peck_step` is `0.0` — is modelled by an `Option` result (`none` = the
generator raises).
-/

/-- Configuration record: the settings attributes read by `generate_gcode`
via `_get(settings, attr, default)`, with the source's default values. -/
structure Config where
  work_offset : String := "G54"
  safe_z : ℚ := 85
  top_z : ℚ := 0
  depth : ℚ := -5
  plunge_f : ℚ := 300
  travel_f : ℚ := 6000
  tool_diam : ℚ := 4
  spindle_rpm : ℚ := 5000
  coolant_on : Bool := false
  peck_enable : Bool := false
  peck_step : ℚ := 2
  peck_retract : ℚ := 1
  peck_dwell_ms : ℚ := 0
  slow_start_enable : Bool := false
  slow_start_mode : String := "factor"
  slow_start_factor : ℚ := 4/10
  slow_start_mm : ℚ := 4
  slow_start_feed_mult : ℚ := 4/10
  tap_mode : Bool := false
  y_map : List (String × ℚ) := [("Y10", 10), ("Y30", 30)]
  y_top : ℚ := 300
  y_slot_a : ℚ := -10
  y_slot_b : ℚ := 10
  deriving Repr

/-- One profile to be machined (`ProfileSpec` in the source).  `sections` is
`none` when the attribute is missing or `None`; a side's hole list is `none`
when it is `None`; a hole entry is `none` when `float(x)` would raise. -/
structure ProfileSpec where
  name : String
  ptype : String
  length_mm : ℚ
  sections : Option (List (String × Option (List (Option ℚ)))) := none
  deriving Repr

/-- Structured form of one emitted G-code line.  Motion lines carry their
unrounded numeric arguments; fixed control lines keep their literal text. -/
inductive Instr where
  | comment (s : String)
  | titleComment (name ptype : String) (len : Option ℚ)
  | profileComment (name ptype : String) (len : ℚ)
  | zijComment (tok : String) (y : ℚ)
  | frame (s : String)
  | spindleOn (rpm : ℚ)
  | toolComment (d : ℚ)
  | feedZ (z f : ℚ)
  | rapidZ (z : ℚ)
  | rapidX (x : ℚ) (f : Option ℚ)
  | rapidY (y : ℚ) (f : Option ℚ)
  | dwell (seconds : ℚ)
  deriving DecidableEq, Repr

/- ---------- string helpers (Python `str` operations) ---------- -/

/-- Pattern `p` is a prefix of `s` (character lists). -/
def charsPre : List Char → List Char → Bool
  | [], _ => true
  | _ :: _, [] => false
  | a :: as, b :: bs => a == b && charsPre as bs

/-- Pattern `p` occurs somewhere in `s` (character lists). -/
def charsSub (p : List Char) : List Char → Bool
  | [] => charsPre p []
  | s@(_ :: rest) => charsPre p s || charsSub p rest

/-- Python `pat in u` (substring containment). -/
def strContains (u pat : String) : Bool := charsSub pat.data u.data

/-- Python `s.upper()` (ASCII). -/
def pyUpper (s : String) : String := s.map Char.toUpper

/-- Python `s.split()`: split on whitespace runs, dropping empty pieces. -/
def pySplitWs (s : String) : List String :=
  (s.split Char.isWhitespace).filter (fun t => t ≠ "")

/-- `" ".join(str(side).upper().split())` from `_side_to_y`. -/
def normLabel (s : String) : String :=
  String.intercalate " " (pySplitWs (pyUpper s))

/- ---------- _side_to_y ---------- -/

/-- The `for key, val in y_map.items()` loop of `_side_to_y`: first entry
(in insertion order) whose `"ZIJKANT " ++ key` occurs in `u`. -/
def ymapLookup (u : String) : List (String × ℚ) → Option ℚ
  | [] => none
  | (k, v) :: rest =>
      if strContains u ("ZIJKANT " ++ k) then some v else ymapLookup u rest

/-- `_side_to_y(side, settings)`. -/
def side_to_y (c : Config) (side : String) : Option ℚ :=
  let u := normLabel side
  if charsPre "BOVENKANT".data u.data then some c.y_top
  else if strContains u "ZIJKANT" && strContains u "T-SLOT A" then some c.y_slot_a
  else if strContains u "ZIJKANT" && strContains u "T-SLOT B" then some c.y_slot_b
  else ymapLookup u c.y_map

/- ---------- _profile_thickness ---------- -/

/-- Numeric value of a digit run. -/
def digitsVal (ds : List Char) : ℕ :=
  ds.foldl (fun a d => 10 * a + (d.toNat - 48)) 0

/-- Parse `\d+(?:\.\d+)?` at the head of `cs`; both digit runs are maximal,
which coincides with the regex because the characters that may follow a run
are never digits. -/
def parseNum (cs : List Char) : Option (ℚ × List Char) :=
  let ds := cs.takeWhile Char.isDigit
  let rest := cs.dropWhile Char.isDigit
  if ds.isEmpty then none
  else
    match rest with
    | '.' :: cs2 =>
        let fs := cs2.takeWhile Char.isDigit
        let rest2 := cs2.dropWhile Char.isDigit
        if fs.isEmpty then some ((digitsVal ds : ℚ), rest)
        else some ((digitsVal ds : ℚ) + (digitsVal fs : ℚ) / (10 : ℚ) ^ fs.length, rest2)
    | _ => some ((digitsVal ds : ℚ), rest)

/-- The separator class `[x×]` with `re.I`. -/
def isXChar (ch : Char) : Bool := ch == 'x' || ch == 'X' || ch == '×'

/-- Skip `\s*`. -/
def skipWs (cs : List Char) : List Char := cs.dropWhile Char.isWhitespace

/-- Try to match `_DIM_RE` starting exactly at the head of `cs`. -/
def matchDims (cs : List Char) : Option (ℚ × ℚ) :=
  match parseNum cs with
  | none => none
  | some (a, r1) =>
      match skipWs r1 with
      | [] => none
      | ch :: r3 =>
          if isXChar ch then
            match parseNum (skipWs r3) with
            | none => none
            | some (b, _) => some (a, b)
          else none

/-- `re.search`: first (leftmost) match of `_DIM_RE`. -/
def searchDims : List Char → Option (ℚ × ℚ)
  | [] => none
  | c :: rest =>
      match matchDims (c :: rest) with
      | some ab => some ab
      | none => searchDims rest

/-- `_profile_thickness(ptype, fallback)`. -/
def profile_thickness (ptype : String) (fallback : ℚ) : ℚ :=
  match searchDims ptype.data with
  | some (a, b) => min a b
  | none => fallback

/- ---------- the local bindings of generate_gcode ---------- -/

/-- The settings values as read and transformed at the top of
`generate_gcode` (abs on the peck values and `slow_start_mm`, `max(0, ·)` on
the dwell, `max(0.01, ·)` on the slow-start feed multiplier, lower-cased
slow-start mode, and `target_z = top_z + depth`). -/
structure Resolved where
  work_offset : String
  safe_z : ℚ
  top_z : ℚ
  depth : ℚ
  plunge_f : ℚ
  travel_f : ℚ
  tool_diam : ℚ
  spindle_rpm : ℚ
  coolant_on : Bool
  peck_enable : Bool
  peck_step : ℚ
  peck_retract : ℚ
  peck_dwell_ms : ℚ
  slow_start_enable : Bool
  slow_start_mode : String
  slow_start_factor : ℚ
  slow_start_mm_fixed : ℚ
  slow_start_feed_mult : ℚ
  slow_feed : ℚ
  target_z : ℚ
  deriving Repr

/-- Python `s.lower()` (ASCII). -/
def pyLower (s : String) : String := s.map Char.toLower

/-- Lines 67–92 of `generate_gcode`: bind the settings into locals.  The
`tap` flag is read separately (it selects only textual formatting and the
framing lines, so it is passed on its own to the emission loops). -/
def resolve (c : Config) : Resolved where
  work_offset := c.work_offset
  safe_z := c.safe_z
  top_z := c.top_z
  depth := c.depth
  plunge_f := c.plunge_f
  travel_f := c.travel_f
  tool_diam := c.tool_diam
  spindle_rpm := c.spindle_rpm
  coolant_on := c.coolant_on
  peck_enable := c.peck_enable
  peck_step := |c.peck_step|
  peck_retract := |c.peck_retract|
  peck_dwell_ms := max 0 c.peck_dwell_ms
  slow_start_enable := c.slow_start_enable
  slow_start_mode := pyLower c.slow_start_mode
  slow_start_factor := c.slow_start_factor
  slow_start_mm_fixed := |c.slow_start_mm|
  slow_start_feed_mult := max (1/100) c.slow_start_feed_mult
  slow_feed := c.plunge_f * max (1/100) c.slow_start_feed_mult
  target_z := c.top_z + c.depth

/- ---------- drill_moves_for_one_hole ---------- -/

/-- Lines 98–105: the clamped slow-start distance `start_mm`. -/
def slowStartDist (r : Resolved) (ptype : String) : ℚ :=
  let start0 : ℚ :=
    if r.slow_start_enable then
      if r.slow_start_mode == "factor" then
        r.slow_start_factor * profile_thickness ptype 20
      else r.slow_start_mm_fixed
    else 0
  min (max 0 start0) |r.target_z - r.top_z|

/-- The `current` cursor value after the (possibly empty) slow-start phase. -/
def effStartZ (r : Resolved) (ptype : String) : ℚ :=
  if slowStartDist r ptype > 0 then
    max r.target_z (r.top_z - slowStartDist r ptype)
  else r.top_z

/-- Lines 108–111: the slow-start feed line, when `start_mm > 0`. -/
def slowLines (r : Resolved) (ptype : String) : List Instr :=
  if slowStartDist r ptype > 0 then
    [Instr.feedZ (max r.target_z (r.top_z - slowStartDist r ptype)) r.slow_feed]
  else []

/-- Lines 119–126: the `for _ in range(n)` peck loop, one constructor
argument per remaining iteration, threading the `current` cursor. -/
def peckLoop (r : Resolved) : ℕ → ℚ → List Instr
  | 0, _ => []
  | n + 1, current =>
      let next_z := max r.target_z (current - r.peck_step)
      Instr.feedZ next_z r.plunge_f ::
        ((if next_z > r.target_z then
            Instr.rapidZ (min r.top_z (next_z + r.peck_retract)) ::
              (if r.peck_dwell_ms > 0 then [Instr.dwell (r.peck_dwell_ms / 1000)] else [])
          else []) ++ peckLoop r n next_z)

/-- Lines 113–128: the peck phase, entered with the cursor at `current`.
`none` models the Python `ZeroDivisionError` raised by
`remaining / peck_step` when `peck_step` is zero. -/
def peckPhase (r : Resolved) (current : ℚ) : Option (List Instr) :=
  if current ≤ r.target_z + 1/1000000 then some [Instr.rapidZ r.safe_z]
  else if r.peck_step = 0 then none
  else
    let remaining := |current - r.target_z|
    let n := (max 1 ⌈remaining / r.peck_step⌉).toNat
    some (peckLoop r n current ++ [Instr.rapidZ r.safe_z])

/-- `drill_moves_for_one_hole(ptype)`: the full per-hole cycle. -/
def drill_moves_for_one_hole (r : Resolved) (ptype : String) : Option (List Instr) :=
  let current := effStartZ r ptype
  if r.peck_enable then
    (peckPhase r current).map (fun pk => slowLines r ptype ++ pk)
  else
    some (slowLines r ptype ++
      (if current > r.target_z then [Instr.feedZ r.target_z r.plunge_f] else []) ++
      [Instr.rapidZ r.safe_z])

/- ---------- the assembler loops of generate_gcode ---------- -/

/-- The skip diagnostic of line 182. -/
def skipMsg (side : String) : String :=
  "(SKIP onbekende zijde: " ++ side ++ ")"

/-- Lines 186–190: the per-side comment. -/
def sideComment (side : String) (y : ℚ) : Instr :=
  let u := pyUpper side
  if charsPre "ZIJKANT".data u.data then
    Instr.zijComment ((pySplitWs u).getLastD "") y
  else Instr.comment ("(" ++ side ++ ")")

/-- Lines 194–200: the `for x in xs or []` hole loop of one side.  A `none`
hole entry is a value on which `float(x)` raises, skipped by the
`try/except: continue`. -/
def holeLoop (tap : Bool) (r : Resolved) (ptype : String) :
    List (Option ℚ) → Option (List Instr)
  | [] => some []
  | none :: rest => holeLoop tap r ptype rest
  | some xf :: rest =>
      match drill_moves_for_one_hole r ptype with
      | none => none
      | some d =>
          match holeLoop tap r ptype rest with
          | none => none
          | some tail =>
              some (Instr.rapidX xf (if tap then none else some r.travel_f) ::
                (d ++ tail))

/-- Lines 179–200: the `for side, xs in sections.items()` loop. -/
def sidesFor (tap : Bool) (c : Config) (r : Resolved) (ptype : String) :
    List (String × Option (List (Option ℚ))) → Option (List Instr)
  | [] => some []
  | (side, xs) :: rest =>
      match side_to_y c side with
      | none =>
          (sidesFor tap c r ptype rest).map
            (fun tail => Instr.comment (skipMsg side) :: tail)
      | some y =>
          match holeLoop tap r ptype (xs.getD []) with
          | none => none
          | some hs =>
              match sidesFor tap c r ptype rest with
              | none => none
              | some tail =>
                  some (sideComment side y ::
                    Instr.rapidY y (if tap then none else some r.travel_f) ::
                    (hs ++ tail))

/-- Lines 168–200: one profile's block (start marker, fixed safe-travel
preamble, then the sides). -/
def profileBlock (tap : Bool) (c : Config) (r : Resolved) (p : ProfileSpec) :
    Option (List Instr) :=
  (sidesFor tap c r p.ptype (p.sections.getD [])).map (fun body =>
    Instr.profileComment p.name p.ptype p.length_mm ::
    Instr.rapidX 0 none ::
    Instr.rapidZ r.safe_z ::
    Instr.rapidY 300 none :: body)

/-- Line 167: the `for idx, p in enumerate(profiles)` loop. -/
def profilesLoop (tap : Bool) (c : Config) (r : Resolved) :
    List ProfileSpec → Option (List Instr)
  | [] => some []
  | p :: rest =>
      match profileBlock tap c r p with
      | none => none
      | some b =>
          match profilesLoop tap c r rest with
          | none => none
          | some t => some (b ++ t)

/-- Line 140: the `.tap` title comment built from the first profile, or the
getattr defaults when the profile list is empty. -/
def titleInstr : List ProfileSpec → Instr
  | [] => Instr.titleComment "Program" "" none
  | p :: _ => Instr.titleComment p.name p.ptype (some p.length_mm)

/-- Lines 137–165: the program preamble of either dialect. -/
def preambleLines (tap : Bool) (r : Resolved) (ps : List ProfileSpec) : List Instr :=
  if tap then
    [titleInstr ps,
     Instr.frame "G90 G94 G91.1 G40 G49 G17",
     Instr.frame "G21",
     Instr.frame "G28 G91 Z0.",
     Instr.frame "G90",
     Instr.frame r.work_offset,
     Instr.spindleOn r.spindle_rpm] ++
    (if r.coolant_on then [Instr.frame "M8"] else []) ++
    [Instr.rapidZ r.safe_z]
  else
    [Instr.comment "(G-CODE)",
     Instr.frame "G90 G21",
     Instr.frame "G17",
     Instr.frame r.work_offset,
     Instr.toolComment r.tool_diam,
     Instr.spindleOn r.spindle_rpm] ++
    (if r.coolant_on then [Instr.frame "M8"] else []) ++
    [Instr.rapidZ r.safe_z]

/-- Lines 203–215: the program postamble of either dialect. -/
def postambleLines (tap : Bool) (r : Resolved) : List Instr :=
  if tap then
    (if r.coolant_on then [Instr.frame "M9"] else []) ++
    [Instr.frame "M5",
     Instr.frame "G28 G91 Z0.",
     Instr.frame "G90",
     Instr.frame "G28 G91 X0. Y0.",
     Instr.frame "G90",
     Instr.frame "M30"]
  else [Instr.frame "M30"]

/-- `generate_gcode(profiles, settings)`, as the structured instruction
stream.  `none` models the generator raising (`ZeroDivisionError` from a
zero peck step, see `peckPhase`). -/
def generate_gcode (ps : List ProfileSpec) (c : Config) : Option (List Instr) :=
  let r := resolve c
  let tap := c.tap_mode
  (profilesLoop tap c r ps).map (fun body =>
    preambleLines tap r ps ++ body ++ postambleLines tap r)

/- ---------- observation helpers used by the claims ---------- -/

/-- Is this instruction a drilling feed move (`G1 Z… F…`)? -/
def isFeedInstr : Instr → Bool
  | .feedZ _ _ => true
  | _ => false

/-- Destination of a drilling feed move, `none` for anything else. -/
def feedDestOf : Instr → Option ℚ
  | .feedZ z _ => some z
  | _ => none

/-- Destination of the last drilling feed move of a sequence, if any. -/
def lastFeedDest (ls : List Instr) : Option ℚ :=
  (ls.filterMap feedDestOf).getLast?

/-- The dialect-independent content of a motion instruction: its kind and
unrounded destination (and, for drilling feeds, the feed rate). -/
inductive MoveKey where
  | feedTo (z f : ℚ)
  | rapidToZ (z : ℚ)
  | rapidToX (x : ℚ)
  | rapidToY (y : ℚ)
  | dwellFor (seconds : ℚ)
  deriving DecidableEq, Repr

/-- Project an instruction to its motion content; comments and fixed
framing lines project to `none`. -/
def instrKey : Instr → Option MoveKey
  | .feedZ z f => some (.feedTo z f)
  | .rapidZ z => some (.rapidToZ z)
  | .rapidX x _ => some (.rapidToX x)
  | .rapidY y _ => some (.rapidToY y)
  | .dwell s => some (.dwellFor s)
  | _ => none

/-- Motion content of an instruction list. -/
def kernList (ls : List Instr) : List MoveKey := ls.filterMap instrKey

/-- Motion content of a whole (possibly failed) generation result. -/
def motionKernel (o : Option (List Instr)) : Option (List MoveKey) :=
  o.map kernList

/- ---------- concrete inputs used by counterexamples and witnesses ---------- -/

/-- Slow start stops `1e-6` (exactly the epsilon tolerance) above the
target, with peck enabled and a positive peck step. -/
def cxC1 : Config :=
  { peck_enable := true, peck_step := 2, slow_start_enable := true,
    slow_start_mode := "mm", slow_start_mm := 4999999/1000000 }

/-- Peck enabled with a zero peck step. -/
def cxC3 : Config := { peck_enable := true, peck_step := 0 }

/-- One profile, one resolvable side, one hole. -/
def oneHoleProfile : ProfileSpec :=
  { name := "P1", ptype := "20x40", length_mm := 100,
    sections := some [("BOVENKANT", some [some 10])] }

/-- A `y_map` in which an earlier key is a prefix of a later, exactly
matching key. -/
def cxC7 : Config := { y_map := [("Y1", 5), ("Y10", 10)] }

/-- Slow start enabled in fixed-millimeter mode (all other settings at
their defaults). -/
def c9w : Config := { slow_start_enable := true, slow_start_mode := "mm" }

/- ==================== helper lemmas ==================== -/

@[simp] theorem resolve_work_offset (c : Config) : (resolve c).work_offset = c.work_offset := rfl

@[simp] theorem resolve_safe_z (c : Config) : (resolve c).safe_z = c.safe_z := rfl

@[simp] theorem resolve_top_z (c : Config) : (resolve c).top_z = c.top_z := rfl

@[simp] theorem resolve_depth (c : Config) : (resolve c).depth = c.depth := rfl

@[simp] theorem resolve_plunge_f (c : Config) : (resolve c).plunge_f = c.plunge_f := rfl

@[simp] theorem resolve_travel_f (c : Config) : (resolve c).travel_f = c.travel_f := rfl

@[simp] theorem resolve_tool_diam (c : Config) : (resolve c).tool_diam = c.tool_diam := rfl

@[simp] theorem resolve_spindle_rpm (c : Config) : (resolve c).spindle_rpm = c.spindle_rpm := rfl

@[simp] theorem resolve_coolant_on (c : Config) : (resolve c).coolant_on = c.coolant_on := rfl

@[simp] theorem resolve_peck_enable (c : Config) : (resolve c).peck_enable = c.peck_enable := rfl

@[simp] theorem resolve_peck_step (c : Config) : (resolve c).peck_step = |c.peck_step| := rfl

@[simp] theorem resolve_peck_retract (c : Config) : (resolve c).peck_retract = |c.peck_retract| := rfl

@[simp] theorem resolve_peck_dwell_ms (c : Config) : (resolve c).peck_dwell_ms = max 0 c.peck_dwell_ms := rfl

@[simp] theorem resolve_slow_start_enable (c : Config) :
    (resolve c).slow_start_enable = c.slow_start_enable := rfl

@[simp] theorem resolve_slow_start_mode (c : Config) :
    (resolve c).slow_start_mode = pyLower c.slow_start_mode := rfl

@[simp] theorem resolve_slow_start_factor (c : Config) :
    (resolve c).slow_start_factor = c.slow_start_factor := rfl

@[simp] theorem resolve_slow_start_mm_fixed (c : Config) :
    (resolve c).slow_start_mm_fixed = |c.slow_start_mm| := rfl

@[simp] theorem resolve_slow_start_feed_mult (c : Config) :
    (resolve c).slow_start_feed_mult = max (1/100) c.slow_start_feed_mult := rfl

@[simp] theorem resolve_slow_feed (c : Config) :
    (resolve c).slow_feed = c.plunge_f * max (1/100) c.slow_start_feed_mult := rfl

@[simp] theorem resolve_target_z (c : Config) : (resolve c).target_z = c.top_z + c.depth := rfl

theorem slowStartDist_nonneg (r : Resolved) (pt : String) :
    0 ≤ slowStartDist r pt := by
  simp only [slowStartDist]
  exact le_min (le_max_left 0 _) (abs_nonneg _)

theorem slowStartDist_le (r : Resolved) (pt : String) :
    slowStartDist r pt ≤ |r.target_z - r.top_z| := by
  simp only [slowStartDist]
  exact min_le_right _ _

theorem slowStartDist_off (r : Resolved) (pt : String)
    (h : r.slow_start_enable = false) : slowStartDist r pt = 0 := by
  simp [slowStartDist, h, abs_nonneg]

/- ==================== C4 ==================== -/

/-- C4: for every configuration and profile type label, the effective
slow-start distance used by the drill cycle lies in `[0, |depth|]`. -/
theorem C4_slow_start_clamped (c : Config) (pt : String) :
    0 ≤ slowStartDist (resolve c) pt ∧ slowStartDist (resolve c) pt ≤ |c.depth| := by
  refine ⟨slowStartDist_nonneg _ _, ?_⟩
  have h := slowStartDist_le (resolve c) pt
  have e : (resolve c).target_z - (resolve c).top_z = c.depth := by
    show c.top_z + c.depth - c.top_z = c.depth
    ring
  rwa [e] at h

/- ==================== C2 ==================== -/

/-- C2: with peck and slow-start both disabled and depth negative, the
per-hole drill cycle is exactly one feed move to `target_z` followed by one
rapid to `safe_z`; when `top_z = target_z` it is only the rapid to
`safe_z`. -/
theorem C2_plain_plunge (c : Config) (pt : String) (hp : c.peck_enable = false)
    (hs : c.slow_start_enable = false) :
    (c.depth < 0 → drill_moves_for_one_hole (resolve c) pt =
        some [Instr.feedZ (c.top_z + c.depth) c.plunge_f, Instr.rapidZ c.safe_z]) ∧
    (c.top_z = c.top_z + c.depth → drill_moves_for_one_hole (resolve c) pt =
        some [Instr.rapidZ c.safe_z]) := by
  have hd0 : slowStartDist (resolve c) pt = 0 := slowStartDist_off _ _ hs
  have he : effStartZ (resolve c) pt = c.top_z := by simp [effStartZ, hd0]
  have hl : slowLines (resolve c) pt = [] := by simp [slowLines, hd0]
  constructor
  · intro hdepth
    have hgt : (resolve c).target_z < effStartZ (resolve c) pt := by
      rw [he]
      show c.top_z + c.depth < c.top_z
      linarith
    simp [drill_moves_for_one_hole, hp, hl, he, hgt, hdepth]
  · intro heq
    have hng : ¬ ((resolve c).target_z < effStartZ (resolve c) pt) := by
      rw [he]
      show ¬ (c.top_z + c.depth < c.top_z)
      rw [← heq]
      exact lt_irrefl _
    simp only [drill_moves_for_one_hole, hp, hl]
    rw [if_neg (by simp [hp]), if_neg hng]
    simp

/-- C2 witness at the default configuration with depth `-5` (and at depth
`0` for the second branch). -/
theorem C2_plain_plunge_witness :
    (({} : Config).peck_enable = false ∧ ({} : Config).slow_start_enable = false ∧
      ({} : Config).depth < 0 ∧
      drill_moves_for_one_hole (resolve {}) "20x40" =
        some [Instr.feedZ (({} : Config).top_z + ({} : Config).depth) ({} : Config).plunge_f,
          Instr.rapidZ ({} : Config).safe_z]) ∧
    (({ depth := 0 } : Config).top_z = ({ depth := 0 } : Config).top_z + ({ depth := 0 } : Config).depth ∧
      drill_moves_for_one_hole (resolve { depth := 0 }) "20x40" =
        some [Instr.rapidZ ({ depth := 0 } : Config).safe_z]) :=
  ⟨⟨rfl, rfl, by norm_num,
      (C2_plain_plunge {} "20x40" rfl rfl).1 (by norm_num)⟩,
    ⟨by norm_num,
      (C2_plain_plunge { depth := 0 } "20x40" rfl rfl).2 (by norm_num)⟩⟩

/- ==================== C3 ==================== -/

/-- C3 (code bug): with peck enabled and `peck_step = 0`, the generator
does not terminate normally: the Python source raises `ZeroDivisionError`
at `remaining / peck_step` (modelled as `none`), contradicting the claimed
defensive clamping. -/
theorem C3_zero_peck_step_raises :
    cxC3.peck_enable = true ∧ cxC3.peck_step = 0 ∧
    generate_gcode [oneHoleProfile] cxC3 = none := by
  refine ⟨rfl, rfl, ?_⟩
  with_unfolding_all decide

/- ==================== C9 ==================== -/

/-- C9: the slow-start move's feed rate is `plunge_f * max(0.01,
slow_start_feed_mult)`, and it is positive whenever `plunge_f` is. -/
theorem C9_slow_feed_clamped (c : Config) (pt : String)
    (h : 0 < slowStartDist (resolve c) pt) :
    slowLines (resolve c) pt =
      [Instr.feedZ (max (c.top_z + c.depth) (c.top_z - slowStartDist (resolve c) pt))
          (c.plunge_f * max (1/100) c.slow_start_feed_mult)] ∧
    (0 < c.plunge_f → 0 < c.plunge_f * max (1/100) c.slow_start_feed_mult) := by
  constructor
  · simp [slowLines, h]
  · intro hpf
    have hm : (0 : ℚ) < max (1/100) c.slow_start_feed_mult :=
      lt_of_lt_of_le (by norm_num) (le_max_left _ _)
    exact mul_pos hpf hm

/-- C9 witness: slow start 4 mm into a 5 mm hole at the default feeds. -/
theorem C9_slow_feed_clamped_witness :
    0 < slowStartDist (resolve c9w) "20x40" ∧
    (slowLines (resolve c9w) "20x40" =
      [Instr.feedZ (max (c9w.top_z + c9w.depth) (c9w.top_z - slowStartDist (resolve c9w) "20x40"))
          (c9w.plunge_f * max (1/100) c9w.slow_start_feed_mult)] ∧
     (0 < c9w.plunge_f → 0 < c9w.plunge_f * max (1/100) c9w.slow_start_feed_mult)) :=
  ⟨by with_unfolding_all decide,
    C9_slow_feed_clamped c9w "20x40" (by with_unfolding_all decide)⟩

/- ==================== C10 ==================== -/

/-- C10: a missing/None `sections` yields only the start marker and fixed
safe-travel preamble; a None hole list still yields the side comment and
rapid Y move, with no drill cycles. -/
theorem C10_none_sections_and_holes (tap : Bool) (c : Config) (r : Resolved)
    (nm pt : String) (ln : ℚ) (s : String) (y : ℚ)
    (hy : side_to_y c s = some y) :
    profileBlock tap c r ⟨nm, pt, ln, none⟩ =
      some [Instr.profileComment nm pt ln, Instr.rapidX 0 none, Instr.rapidZ r.safe_z,
        Instr.rapidY 300 none] ∧
    sidesFor tap c r pt [(s, none)] =
      some [sideComment s y, Instr.rapidY y (if tap then none else some r.travel_f)] := by
  constructor
  · simp [profileBlock, sidesFor]
  · simp [sidesFor, hy, holeLoop]

/-- C10 witness at the default configuration, side `"BOVENKANT"`. -/
theorem C10_none_sections_and_holes_witness :
    side_to_y {} "BOVENKANT" = some 300 ∧
    (profileBlock false {} (resolve {}) ⟨"P1", "20x40", 100, none⟩ =
      some [Instr.profileComment "P1" "20x40" 100, Instr.rapidX 0 none,
        Instr.rapidZ (resolve {}).safe_z, Instr.rapidY 300 none] ∧
     sidesFor false {} (resolve {}) "20x40" [("BOVENKANT", none)] =
      some [sideComment "BOVENKANT" 300,
        Instr.rapidY 300 (if false then none else some (resolve {}).travel_f)]) :=
  ⟨by with_unfolding_all decide,
    C10_none_sections_and_holes false {} (resolve {}) "P1" "20x40" 100 "BOVENKANT" 300
      (by with_unfolding_all decide)⟩

/- ==================== C1 ==================== -/

theorem max_sub_of_nonneg (t y m : ℚ) (hm : 0 ≤ m) :
    max t (max t y - m) = max t (y - m) := by
  rcases le_total t y with h | h
  · rw [max_eq_right h]
  · rw [max_eq_left h, max_eq_left (by linarith), max_eq_left (by linarith)]

theorem peckLoop_countP (r : Resolved) : ∀ (n : ℕ) (cur : ℚ),
    (peckLoop r n cur).countP isFeedInstr = n := by
  intro n
  induction n with
  | zero => intro cur; simp [peckLoop]
  | succ n ih =>
      intro cur
      by_cases h1 : r.target_z < max r.target_z (cur - r.peck_step)
      · by_cases h2 : r.peck_dwell_ms > 0 <;>
          simp [peckLoop, h1, h2, List.countP_cons, List.countP_append, isFeedInstr, ih]
      · simp [peckLoop, h1, List.countP_cons, List.countP_append, isFeedInstr, ih]

theorem peckLoop_lastFeedDest (r : Resolved) (hs : 0 ≤ r.peck_step) :
    ∀ (n : ℕ) (cur : ℚ), 0 < n →
      lastFeedDest (peckLoop r n cur) = some (max r.target_z (cur - n * r.peck_step)) := by
  intro n
  induction n with
  | zero => intro cur h; exact absurd h (lt_irrefl 0)
  | succ n ih =>
      intro cur _
      have hfeeds : (peckLoop r (n + 1) cur).filterMap feedDestOf =
          max r.target_z (cur - r.peck_step) ::
            (peckLoop r n (max r.target_z (cur - r.peck_step))).filterMap feedDestOf := by
        by_cases h1 : r.target_z < max r.target_z (cur - r.peck_step)
        · by_cases h2 : r.peck_dwell_ms > 0 <;>
            simp [peckLoop, h1, h2, List.filterMap_cons, List.filterMap_append, feedDestOf]
        · simp [peckLoop, h1, List.filterMap_cons, feedDestOf]
      rcases Nat.eq_zero_or_pos n with h0 | hpos
      · subst h0
        unfold lastFeedDest
        rw [hfeeds]
        simp [peckLoop]
      · have hrec := ih (max r.target_z (cur - r.peck_step)) hpos
        unfold lastFeedDest at hrec ⊢
        rw [hfeeds]
        rcases htail : (peckLoop r n (max r.target_z (cur - r.peck_step))).filterMap feedDestOf with
          _ | ⟨x, xs⟩
        · rw [htail] at hrec; simp at hrec
        · rw [htail] at hrec
          rw [List.getLast?_cons_cons, hrec]
          have hm : (0 : ℚ) ≤ n * r.peck_step :=
            mul_nonneg (by positivity) hs
          rw [max_sub_of_nonneg _ _ _ hm]
          congr 1
          push_cast
          ring_nf

/-- C1 counterexample: at `cxC1` the slow start ends exactly `1e-6` above
`target_z`, so the peck phase emits zero drilling feed moves while
`ceil(|target_z - effective_start_z| / peck_step)` is `1`; the input satisfies
all the claim's premises (peck on, positive step, negative depth). -/
theorem C1_counterexample :
    cxC1.peck_enable = true ∧ 0 < (resolve cxC1).peck_step ∧ cxC1.depth < 0 ∧
    ¬ ((peckPhase (resolve cxC1) (effStartZ (resolve cxC1) "40x40")).map
          (fun ls => ls.countP isFeedInstr) =
        some (⌈|(resolve cxC1).target_z - effStartZ (resolve cxC1) "40x40"| /
            (resolve cxC1).peck_step⌉).toNat) := by
  refine ⟨rfl, by with_unfolding_all decide, by with_unfolding_all decide, ?_⟩
  with_unfolding_all decide

/-- C1 (amended): with peck enabled, a nonzero configured peck step and
negative depth, the peck phase of the drill cycle emits
`ceil(|target_z - effective_start_z| / peck_step)` drilling feed moves whose
last destination is exactly `target_z` — provided the effective start is more
than the `1e-6` epsilon above `target_z`; when the effective start is within
that epsilon of (or below) `target_z`, the phase emits no drilling feed move
at all. -/
theorem C1_peck_count_amended (c : Config) (pt : String) (hp : c.peck_enable = true)
    (hstep : c.peck_step ≠ 0) (_hd : c.depth < 0) :
    drill_moves_for_one_hole (resolve c) pt =
      (peckPhase (resolve c) (effStartZ (resolve c) pt)).map
        (fun pk => slowLines (resolve c) pt ++ pk) ∧
    ((resolve c).target_z + 1/1000000 < effStartZ (resolve c) pt →
      (peckPhase (resolve c) (effStartZ (resolve c) pt)).map
          (fun ls => (ls.countP isFeedInstr, lastFeedDest ls)) =
        some ((⌈|(resolve c).target_z - effStartZ (resolve c) pt| /
            (resolve c).peck_step⌉).toNat, some (resolve c).target_z)) ∧
    (effStartZ (resolve c) pt ≤ (resolve c).target_z + 1/1000000 →
      (peckPhase (resolve c) (effStartZ (resolve c) pt)).map
          (fun ls => ls.countP isFeedInstr) = some 0) := by
  set r := resolve c with hr
  set e := effStartZ r pt with he
  have hstep' : 0 < r.peck_step := by
    rw [hr]
    simpa using abs_pos.mpr hstep
  refine ⟨by simp [drill_moves_for_one_hole, hp, hr], ?_, ?_⟩
  · intro hgt
    have hnle : ¬ (e ≤ r.target_z + 1/1000000) := not_le.mpr hgt
    have hepos : 0 < e - r.target_z := by
      have : (0:ℚ) < 1/1000000 := by norm_num
      linarith
    have habs : |e - r.target_z| = e - r.target_z := abs_of_pos hepos
    have habs' : |r.target_z - e| = e - r.target_z := by
      rw [abs_sub_comm]; exact habs
    have hceil1 : 1 ≤ ⌈(e - r.target_z) / r.peck_step⌉ :=
      Int.ceil_pos.mpr (div_pos hepos hstep')
    have hmax : max 1 ⌈|e - r.target_z| / r.peck_step⌉ = ⌈(e - r.target_z) / r.peck_step⌉ := by
      rw [habs]; exact max_eq_right hceil1
    have hnpos : 0 < (⌈(e - r.target_z) / r.peck_step⌉).toNat := by
      omega
    have hcast : ((⌈(e - r.target_z) / r.peck_step⌉).toNat : ℚ) =
        ((⌈(e - r.target_z) / r.peck_step⌉ : ℤ) : ℚ) := by
      have hn := Int.toNat_of_nonneg (le_trans zero_le_one hceil1)
      exact_mod_cast congrArg (fun z : ℤ => (z : ℚ)) hn
    have hclamp : e - (⌈(e - r.target_z) / r.peck_step⌉).toNat * r.peck_step ≤ r.target_z := by
      have hle : (e - r.target_z) / r.peck_step ≤ ((⌈(e - r.target_z) / r.peck_step⌉ : ℤ) : ℚ) :=
        Int.le_ceil _
      rw [div_le_iff₀ hstep'] at hle
      rw [hcast]
      linarith
    simp only [peckPhase, if_neg hnle, if_neg (ne_of_gt hstep'), hmax, Option.map_some']
    have hcount : ((peckLoop r (⌈(e - r.target_z) / r.peck_step⌉).toNat e ++
        [Instr.rapidZ r.safe_z]).countP isFeedInstr) =
        (⌈(e - r.target_z) / r.peck_step⌉).toNat := by
      rw [List.countP_append]
      simp [isFeedInstr, peckLoop_countP]
    have hlast : lastFeedDest (peckLoop r (⌈(e - r.target_z) / r.peck_step⌉).toNat e ++
        [Instr.rapidZ r.safe_z]) = some r.target_z := by
      unfold lastFeedDest
      rw [List.filterMap_append]
      simp only [List.filterMap_cons, feedDestOf, List.filterMap_nil, List.append_nil]
      have := peckLoop_lastFeedDest r (le_of_lt hstep') _ e hnpos
      unfold lastFeedDest at this
      rw [this]
      congr 1
      exact max_eq_left hclamp
    rw [hcount, hlast, habs']
  · intro hle
    simp only [peckPhase]
    rw [if_pos hle]
    simp [isFeedInstr]

/-- C1 amended-claim witness: defaults with peck on, step 2, depth −5; the
effective start is `top_z = 0`, well above the epsilon window, and the phase
emits `ceil(5/2) = 3` feeds ending exactly at `target_z = -5`. -/
theorem C1_peck_count_amended_witness :
    (({ peck_enable := true } : Config).peck_step ≠ 0 ∧
      ({ peck_enable := true } : Config).depth < 0 ∧
      (resolve { peck_enable := true }).target_z + 1/1000000 <
        effStartZ (resolve { peck_enable := true }) "20x40") ∧
    (peckPhase (resolve { peck_enable := true })
        (effStartZ (resolve { peck_enable := true }) "20x40")).map
        (fun ls => (ls.countP isFeedInstr, lastFeedDest ls)) =
      some ((⌈|(resolve { peck_enable := true }).target_z -
          effStartZ (resolve { peck_enable := true }) "20x40"| /
          (resolve { peck_enable := true }).peck_step⌉).toNat,
        some (resolve { peck_enable := true }).target_z) :=
  ⟨⟨by with_unfolding_all decide, by with_unfolding_all decide,
      by with_unfolding_all decide⟩,
    (C1_peck_count_amended { peck_enable := true } "20x40" rfl
        (by with_unfolding_all decide) (by with_unfolding_all decide)).2.1
      (by with_unfolding_all decide)⟩

/- ==================== C5 ==================== -/

theorem peckLoop_feed_bound (r : Resolved) (hs : 0 ≤ r.peck_step)
    (ht : r.target_z ≤ r.top_z) :
    ∀ (n : ℕ) (cur : ℚ), r.target_z ≤ cur → cur ≤ r.top_z →
      ∀ z f, Instr.feedZ z f ∈ peckLoop r n cur → r.target_z ≤ z ∧ z ≤ r.top_z := by
  intro n
  induction n with
  | zero => intro cur _ _ z f hz; simp [peckLoop] at hz
  | succ n ih =>
      intro cur h1 h2 z f hz
      have hz1 : r.target_z ≤ max r.target_z (cur - r.peck_step) := le_max_left _ _
      have hz2 : max r.target_z (cur - r.peck_step) ≤ r.top_z := max_le ht (by linarith)
      by_cases hgt : r.target_z < max r.target_z (cur - r.peck_step)
      · by_cases hdw : r.peck_dwell_ms > 0
        · simp only [peckLoop, if_pos hgt, if_pos hdw, List.mem_cons, List.cons_append,
            List.nil_append, List.mem_append, List.mem_singleton] at hz
          rcases hz with h | h | h | h
          · injection h with e1 e2; subst e1; exact ⟨hz1, hz2⟩
          · exact absurd h (by simp)
          · exact absurd h (by simp)
          · exact ih _ hz1 hz2 z f h
        · simp only [peckLoop, if_pos hgt, if_neg hdw, List.mem_cons, List.cons_append,
            List.nil_append, List.mem_append, List.mem_singleton] at hz
          rcases hz with h | h | h
          · injection h with e1 e2; subst e1; exact ⟨hz1, hz2⟩
          · exact absurd h (by simp)
          · exact ih _ hz1 hz2 z f h
      · simp only [peckLoop, if_neg hgt, List.nil_append, List.mem_cons] at hz
        rcases hz with h | h
        · injection h with e1 e2; subst e1; exact ⟨hz1, hz2⟩
        · exact ih _ hz1 hz2 z f h

theorem peckLoop_rapid_bound (r : Resolved) (hs : 0 ≤ r.peck_step)
    (ht : r.target_z ≤ r.top_z) :
    ∀ (n : ℕ) (cur : ℚ), r.target_z ≤ cur → cur ≤ r.top_z →
      ∀ z, Instr.rapidZ z ∈ peckLoop r n cur → z ≤ r.top_z := by
  intro n
  induction n with
  | zero => intro cur _ _ z hz; simp [peckLoop] at hz
  | succ n ih =>
      intro cur h1 h2 z hz
      have hz1 : r.target_z ≤ max r.target_z (cur - r.peck_step) := le_max_left _ _
      have hz2 : max r.target_z (cur - r.peck_step) ≤ r.top_z := max_le ht (by linarith)
      by_cases hgt : r.target_z < max r.target_z (cur - r.peck_step)
      · by_cases hdw : r.peck_dwell_ms > 0
        · simp only [peckLoop, if_pos hgt, if_pos hdw, List.mem_cons, List.cons_append,
            List.nil_append, List.mem_append, List.mem_singleton] at hz
          rcases hz with h | h | h | h
          · exact absurd h (by simp)
          · injection h with e1; subst e1; exact min_le_left _ _
          · exact absurd h (by simp)
          · exact ih _ hz1 hz2 z h
        · simp only [peckLoop, if_pos hgt, if_neg hdw, List.mem_cons, List.cons_append,
            List.nil_append, List.mem_append, List.mem_singleton] at hz
          rcases hz with h | h | h
          · exact absurd h (by simp)
          · injection h with e1; subst e1; exact min_le_left _ _
          · exact ih _ hz1 hz2 z h
      · simp only [peckLoop, if_neg hgt, List.nil_append, List.mem_cons] at hz
        rcases hz with h | h
        · exact absurd h (by simp)
        · exact ih _ hz1 hz2 z h

theorem slowLines_feed_bound (r : Resolved) (pt : String) (ht : r.target_z ≤ r.top_z) :
    ∀ z f, Instr.feedZ z f ∈ slowLines r pt → r.target_z ≤ z ∧ z ≤ r.top_z := by
  intro z f hz
  have hd0 : 0 ≤ slowStartDist r pt := slowStartDist_nonneg r pt
  unfold slowLines at hz
  split at hz
  · simp only [List.mem_singleton] at hz
    injection hz with e1 e2
    subst e1
    exact ⟨le_max_left _ _, max_le ht (by linarith)⟩
  · simp at hz

theorem slowLines_no_rapid (r : Resolved) (pt : String) :
    ∀ z, Instr.rapidZ z ∉ slowLines r pt := by
  intro z hz
  unfold slowLines at hz
  split at hz
  · simp only [List.mem_singleton] at hz
    exact absurd hz (by simp)
  · simp at hz

theorem effStartZ_bounds (r : Resolved) (pt : String) (ht : r.target_z ≤ r.top_z) :
    r.target_z ≤ effStartZ r pt ∧ effStartZ r pt ≤ r.top_z := by
  have hd0 : 0 ≤ slowStartDist r pt := slowStartDist_nonneg r pt
  unfold effStartZ
  split
  · exact ⟨le_max_left _ _, max_le ht (by linarith)⟩
  · exact ⟨ht, le_refl _⟩

/-- C5: with depth negative, every drilling feed move of the per-hole
cycle has its destination inside `[target_z, top_z]`, and every rapid Z
move is either the retract to `safe_z` or a clamped peck retract at or
below `top_z`. -/
theorem C5_cursor_invariant (c : Config) (pt : String) (hd : c.depth < 0)
    (ms : List Instr) (hms : drill_moves_for_one_hole (resolve c) pt = some ms) :
    (∀ z f, Instr.feedZ z f ∈ ms → c.top_z + c.depth ≤ z ∧ z ≤ c.top_z) ∧
    (∀ z, Instr.rapidZ z ∈ ms → z = c.safe_z ∨ z ≤ c.top_z) := by
  set r := resolve c with hr
  have htop : r.top_z = c.top_z := rfl
  have htar : r.target_z = c.top_z + c.depth := rfl
  have hsafe : r.safe_z = c.safe_z := rfl
  have ht : r.target_z ≤ r.top_z := by rw [htop, htar]; linarith
  have hs0 : 0 ≤ r.peck_step := abs_nonneg _
  obtain ⟨he1, he2⟩ := effStartZ_bounds r pt ht
  rw [← htar, ← htop, ← hsafe]
  unfold drill_moves_for_one_hole at hms
  by_cases hpk : r.peck_enable = true
  · rw [if_pos hpk] at hms
    cases hpp : peckPhase r (effStartZ r pt) with
    | none => rw [hpp] at hms; simp at hms
    | some pk =>
        rw [hpp, Option.map_some'] at hms
        injection hms with hms
        subst hms
        unfold peckPhase at hpp
        constructor
        · intro z f hz
          rcases List.mem_append.mp hz with hmem | hmem
          · exact slowLines_feed_bound r pt ht z f hmem
          · split at hpp
            · injection hpp with hpp
              subst hpp
              simp only [List.mem_singleton] at hmem
              exact absurd hmem (by simp)
            · split at hpp
              · exact absurd hpp (by simp)
              · injection hpp with hpp
                subst hpp
                rcases List.mem_append.mp hmem with hmem2 | hmem2
                · exact peckLoop_feed_bound r hs0 ht _ _ he1 he2 z f hmem2
                · simp only [List.mem_singleton] at hmem2
                  exact absurd hmem2 (by simp)
        · intro z hz
          rcases List.mem_append.mp hz with hmem | hmem
          · exact absurd hmem (slowLines_no_rapid r pt z)
          · split at hpp
            · injection hpp with hpp
              subst hpp
              simp only [List.mem_singleton] at hmem
              injection hmem with e1
              exact Or.inl e1
            · split at hpp
              · exact absurd hpp (by simp)
              · injection hpp with hpp
                subst hpp
                rcases List.mem_append.mp hmem with hmem2 | hmem2
                · exact Or.inr (peckLoop_rapid_bound r hs0 ht _ _ he1 he2 z hmem2)
                · simp only [List.mem_singleton] at hmem2
                  injection hmem2 with e1
                  exact Or.inl e1
  · rw [if_neg hpk] at hms
    injection hms with hms
    subst hms
    constructor
    · intro z f hz
      rcases List.mem_append.mp hz with hmem | hmem
      · rcases List.mem_append.mp hmem with hmem2 | hmem2
        · exact slowLines_feed_bound r pt ht z f hmem2
        · split at hmem2
          · simp only [List.mem_singleton] at hmem2
            injection hmem2 with e1 e2
            subst e1
            exact ⟨le_refl _, ht⟩
          · simp at hmem2
      · simp only [List.mem_singleton] at hmem
        exact absurd hmem (by simp)
    · intro z hz
      rcases List.mem_append.mp hz with hmem | hmem
      · rcases List.mem_append.mp hmem with hmem2 | hmem2
        · exact absurd hmem2 (slowLines_no_rapid r pt z)
        · split at hmem2
          · simp only [List.mem_singleton] at hmem2
            exact absurd hmem2 (by simp)
          · simp at hmem2
      · simp only [List.mem_singleton] at hmem
        injection hmem with e1
        exact Or.inl e1

/-- C5 witness: peck drilling with retract and dwell at depth `-5`; the
cycle exists and every feed lands in `[-5, 0]`, every rapid is `85` or at
most `0`. -/
theorem C5_cursor_invariant_witness :
    (({ peck_enable := true, peck_dwell_ms := 100 } : Config).depth < 0 ∧
      drill_moves_for_one_hole (resolve { peck_enable := true, peck_dwell_ms := 100 }) "20x40" ≠ none) ∧
    ((∀ z f, Instr.feedZ z f ∈
        (drill_moves_for_one_hole (resolve { peck_enable := true, peck_dwell_ms := 100 }) "20x40").getD [] →
        ({ peck_enable := true, peck_dwell_ms := 100 } : Config).top_z +
            ({ peck_enable := true, peck_dwell_ms := 100 } : Config).depth ≤ z ∧
          z ≤ ({ peck_enable := true, peck_dwell_ms := 100 } : Config).top_z) ∧
     (∀ z, Instr.rapidZ z ∈
        (drill_moves_for_one_hole (resolve { peck_enable := true, peck_dwell_ms := 100 }) "20x40").getD [] →
        z = ({ peck_enable := true, peck_dwell_ms := 100 } : Config).safe_z ∨
          z ≤ ({ peck_enable := true, peck_dwell_ms := 100 } : Config).top_z)) :=
  ⟨⟨by with_unfolding_all decide, by with_unfolding_all decide⟩,
    C5_cursor_invariant { peck_enable := true, peck_dwell_ms := 100 } "20x40"
      (by with_unfolding_all decide) _ (by with_unfolding_all decide)⟩

/- ==================== C6 ==================== -/

/-- C6: an unresolvable side contributes exactly one diagnostic comment
naming it — no motion instructions — and leaves the instructions of every
other side (before and after it, hence their holes) unchanged; in
particular the sides loop itself never fails on the unresolvable side. -/
theorem C6_skip_unresolved (tap : Bool) (c : Config) (r : Resolved) (pt s : String)
    (xs : Option (List (Option ℚ)))
    (pre post : List (String × Option (List (Option ℚ))))
    (h : side_to_y c s = none) :
    sidesFor tap c r pt (pre ++ (s, xs) :: post) =
      (sidesFor tap c r pt pre).bind (fun a =>
        (sidesFor tap c r pt post).map (fun b =>
          a ++ Instr.comment (skipMsg s) :: b)) := by
  induction pre with
  | nil =>
      simp only [List.nil_append, sidesFor, h]
      cases sidesFor tap c r pt post <;> simp
  | cons hd tl ih =>
      obtain ⟨side', xs'⟩ := hd
      cases hy : side_to_y c side' with
      | none =>
          simp only [List.cons_append, sidesFor, hy, List.append_eq]
          rw [ih]
          cases sidesFor tap c r pt tl <;> cases sidesFor tap c r pt post <;> simp
      | some y =>
          simp only [List.cons_append, sidesFor, hy, List.append_eq]
          cases hl : holeLoop tap r pt (xs'.getD []) with
          | none => simp only [hl, Option.none_bind]
          | some hs =>
              simp only [hl]
              rw [ih]
              cases sidesFor tap c r pt tl <;> cases sidesFor tap c r pt post <;>
                simp [List.append_assoc]

/-- C6 witness: a profile whose middle side `"mystery-side"` is
unresolvable, between two resolvable sides, at the default settings. -/
theorem C6_skip_unresolved_witness :
    side_to_y {} "mystery-side" = none ∧
    sidesFor false {} (resolve {}) "20x40"
        ([("BOVENKANT", some [some 10])] ++ ("mystery-side", some [some 20]) ::
          [("ZIJKANT Y10", some [some 30])]) =
      (sidesFor false {} (resolve {}) "20x40" [("BOVENKANT", some [some 10])]).bind (fun a =>
        (sidesFor false {} (resolve {}) "20x40" [("ZIJKANT Y10", some [some 30])]).map (fun b =>
          a ++ Instr.comment (skipMsg "mystery-side") :: b)) :=
  ⟨by with_unfolding_all decide,
    C6_skip_unresolved false {} (resolve {}) "20x40" "mystery-side" (some [some 20])
      [("BOVENKANT", some [some 10])] [("ZIJKANT Y10", some [some 30])]
      (by with_unfolding_all decide)⟩

/- ==================== C7 ==================== -/

theorem ymapLookup_first (u : String) :
    ∀ (pre : List (String × ℚ)) (k : String) (v : ℚ) (post : List (String × ℚ)),
      strContains u ("ZIJKANT " ++ k) = true →
      (∀ kv ∈ pre, strContains u ("ZIJKANT " ++ kv.1) = false) →
      ymapLookup u (pre ++ (k, v) :: post) = some v := by
  intro pre
  induction pre with
  | nil => intro k v post hk _; simp [ymapLookup, hk]
  | cons hd tl ih =>
      intro k v post hk hpre
      obtain ⟨k', v'⟩ := hd
      have h1 : strContains u ("ZIJKANT " ++ k') = false := hpre (k', v') (by simp)
      simp only [List.cons_append, ymapLookup, h1, Bool.false_eq_true, if_false]
      exact ih k v post hk (fun kv hkv => hpre kv (by simp [hkv]))

/-- C7 counterexample: with `y_map = {"Y1": 5, "Y10": 10}` the literal key
`"Y10"` is present, yet the mapper resolves `"ZIJKANT Y10"` to `5` — the
earlier entry `"Y1"` wins by substring matching; there is no exact-key
priority. -/
theorem C7_counterexample :
    ("Y10", (10 : ℚ)) ∈ cxC7.y_map ∧
    side_to_y cxC7 "ZIJKANT Y10" = some 5 ∧
    side_to_y cxC7 "ZIJKANT Y10" ≠ some 10 :=
  ⟨by with_unfolding_all decide, by with_unfolding_all decide,
    by with_unfolding_all decide⟩

/-- C7 (amended): the mapper checks the top-face family first, then the
slot-A family, then the slot-B family; a label in none of those families is
resolved by the FIRST `y_map` entry (in insertion order) whose
`"ZIJKANT <key>"` is a substring of the normalized label — exact keys get
no priority over earlier substring matches. -/
theorem C7_priority_amended (c : Config) (s : String) :
    (charsPre "BOVENKANT".data (normLabel s).data = true →
      side_to_y c s = some c.y_top) ∧
    (charsPre "BOVENKANT".data (normLabel s).data = false →
      strContains (normLabel s) "ZIJKANT" = true →
      strContains (normLabel s) "T-SLOT A" = true →
      side_to_y c s = some c.y_slot_a) ∧
    (charsPre "BOVENKANT".data (normLabel s).data = false →
      strContains (normLabel s) "T-SLOT A" = false →
      strContains (normLabel s) "ZIJKANT" = true →
      strContains (normLabel s) "T-SLOT B" = true →
      side_to_y c s = some c.y_slot_b) ∧
    (∀ (pre : List (String × ℚ)) (k : String) (v : ℚ) (post : List (String × ℚ)),
      charsPre "BOVENKANT".data (normLabel s).data = false →
      (strContains (normLabel s) "ZIJKANT" && strContains (normLabel s) "T-SLOT A") = false →
      (strContains (normLabel s) "ZIJKANT" && strContains (normLabel s) "T-SLOT B") = false →
      c.y_map = pre ++ (k, v) :: post →
      strContains (normLabel s) ("ZIJKANT " ++ k) = true →
      (∀ kv ∈ pre, strContains (normLabel s) ("ZIJKANT " ++ kv.1) = false) →
      side_to_y c s = some v) := by
  refine ⟨?_, ?_, ?_, ?_⟩
  · intro h1
    simp [side_to_y, h1]
  · intro h1 h2 h3
    simp [side_to_y, h1, h2, h3]
  · intro h1 hA h2 h3
    simp [side_to_y, h1, hA, h2, h3]
  · intro pre k v post h1 hA hB hmap hk hpre
    simp only [side_to_y, h1, hA, hB, Bool.false_eq_true, if_false]
    rw [hmap]
    exact ymapLookup_first (normLabel s) pre k v post hk hpre

/-- C7 amended-claim witness: the first-match rule applied to `cxC7`
resolves `"ZIJKANT Y10"` to the earlier entry's value `5`. -/
theorem C7_priority_amended_witness :
    cxC7.y_map = [] ++ ("Y1", (5 : ℚ)) :: [("Y10", 10)] ∧
    side_to_y cxC7 "ZIJKANT Y10" = some 5 :=
  ⟨rfl,
    (C7_priority_amended cxC7 "ZIJKANT Y10").2.2.2 [] "Y1" 5 [("Y10", 10)]
      (by with_unfolding_all decide) (by with_unfolding_all decide)
      (by with_unfolding_all decide) rfl (by with_unfolding_all decide)
      (fun kv hkv => absurd hkv (by simp))⟩

/- ==================== C8 ==================== -/

theorem kernList_nil : kernList [] = [] := rfl

theorem kernList_append (l1 l2 : List Instr) :
    kernList (l1 ++ l2) = kernList l1 ++ kernList l2 :=
  List.filterMap_append l1 l2 instrKey

theorem kernList_comment (s : String) (l : List Instr) :
    kernList (Instr.comment s :: l) = kernList l := rfl

theorem kernList_titleComment (nm pt : String) (ln : Option ℚ) (l : List Instr) :
    kernList (Instr.titleComment nm pt ln :: l) = kernList l := rfl

theorem kernList_profileComment (nm pt : String) (ln : ℚ) (l : List Instr) :
    kernList (Instr.profileComment nm pt ln :: l) = kernList l := rfl

theorem kernList_zijComment (t : String) (y : ℚ) (l : List Instr) :
    kernList (Instr.zijComment t y :: l) = kernList l := rfl

theorem kernList_frame (s : String) (l : List Instr) :
    kernList (Instr.frame s :: l) = kernList l := rfl

theorem kernList_spindleOn (q : ℚ) (l : List Instr) :
    kernList (Instr.spindleOn q :: l) = kernList l := rfl

theorem kernList_toolComment (q : ℚ) (l : List Instr) :
    kernList (Instr.toolComment q :: l) = kernList l := rfl

theorem kernList_feedZ (z f : ℚ) (l : List Instr) :
    kernList (Instr.feedZ z f :: l) = MoveKey.feedTo z f :: kernList l := rfl

theorem kernList_rapidZ (z : ℚ) (l : List Instr) :
    kernList (Instr.rapidZ z :: l) = MoveKey.rapidToZ z :: kernList l := rfl

theorem kernList_rapidX (x : ℚ) (f : Option ℚ) (l : List Instr) :
    kernList (Instr.rapidX x f :: l) = MoveKey.rapidToX x :: kernList l := rfl

theorem kernList_rapidY (y : ℚ) (f : Option ℚ) (l : List Instr) :
    kernList (Instr.rapidY y f :: l) = MoveKey.rapidToY y :: kernList l := rfl

theorem kernList_dwell (q : ℚ) (l : List Instr) :
    kernList (Instr.dwell q :: l) = MoveKey.dwellFor q :: kernList l := rfl

theorem kernList_sideComment (s : String) (y : ℚ) (l : List Instr) :
    kernList (sideComment s y :: l) = kernList l := by
  simp only [sideComment]
  split <;> rfl

theorem kernList_titleInstr (ps : List ProfileSpec) (l : List Instr) :
    kernList (titleInstr ps :: l) = kernList l := by
  cases ps <;> rfl

theorem side_to_y_set_tap (c : Config) (b : Bool) (s : String) :
    side_to_y { c with tap_mode := b } s = side_to_y c s := rfl

theorem sidesFor_set_tap (tap b : Bool) (c : Config) (r : Resolved) (pt : String) :
    ∀ l, sidesFor tap { c with tap_mode := b } r pt l = sidesFor tap c r pt l := by
  intro l
  induction l with
  | nil => rfl
  | cons hd tl ih =>
      obtain ⟨side, xs⟩ := hd
      simp only [sidesFor, side_to_y_set_tap, ih]

theorem profileBlock_set_tap (tap b : Bool) (c : Config) (r : Resolved) (p : ProfileSpec) :
    profileBlock tap { c with tap_mode := b } r p = profileBlock tap c r p := by
  simp only [profileBlock, sidesFor_set_tap]

theorem profilesLoop_set_tap (tap b : Bool) (c : Config) (r : Resolved) :
    ∀ ps, profilesLoop tap { c with tap_mode := b } r ps = profilesLoop tap c r ps := by
  intro ps
  induction ps with
  | nil => rfl
  | cons p tl ih => simp only [profilesLoop, profileBlock_set_tap, ih]

theorem holeLoop_kern (r : Resolved) (pt : String) : ∀ xs,
    (holeLoop true r pt xs).map kernList = (holeLoop false r pt xs).map kernList := by
  intro xs
  induction xs with
  | nil => rfl
  | cons hd tl ih =>
      cases hd with
      | none => exact ih
      | some x =>
          simp only [holeLoop]
          cases hd2 : drill_moves_for_one_hole r pt with
          | none => rfl
          | some d =>
              cases h1 : holeLoop true r pt tl with
              | none =>
                  cases h2 : holeLoop false r pt tl with
                  | none => rfl
                  | some t2 => rw [h1, h2] at ih; simp at ih
              | some t1 =>
                  cases h2 : holeLoop false r pt tl with
                  | none => rw [h1, h2] at ih; simp at ih
                  | some t2 =>
                      rw [h1, h2] at ih
                      simp only [Option.map_some'] at ih
                      injection ih with ih
                      simp only [Option.map_some', Option.some.injEq,
                        kernList_rapidX, kernList_append, ih]

theorem sidesFor_kern (c : Config) (r : Resolved) (pt : String) : ∀ l,
    (sidesFor true c r pt l).map kernList = (sidesFor false c r pt l).map kernList := by
  intro l
  induction l with
  | nil => rfl
  | cons hd tl ih =>
      obtain ⟨side, xs⟩ := hd
      simp only [sidesFor]
      cases hy : side_to_y c side with
      | none =>
          cases h1 : sidesFor true c r pt tl with
          | none =>
              cases h2 : sidesFor false c r pt tl with
              | none => rfl
              | some t2 => rw [h1, h2] at ih; simp at ih
          | some t1 =>
              cases h2 : sidesFor false c r pt tl with
              | none => rw [h1, h2] at ih; simp at ih
              | some t2 =>
                  rw [h1, h2] at ih
                  simp only [Option.map_some'] at ih
                  injection ih with ih
                  simp only [Option.map_some', Option.some.injEq, kernList_comment, ih]
      | some y =>
          have hk := holeLoop_kern r pt (xs.getD [])
          cases hl1 : holeLoop true r pt (xs.getD []) with
          | none =>
              cases hl2 : holeLoop false r pt (xs.getD []) with
              | none => rfl
              | some hs2 => rw [hl1, hl2] at hk; simp at hk
          | some hs1 =>
              cases hl2 : holeLoop false r pt (xs.getD []) with
              | none => rw [hl1, hl2] at hk; simp at hk
              | some hs2 =>
                  rw [hl1, hl2] at hk
                  simp only [Option.map_some'] at hk
                  injection hk with hk
                  cases h1 : sidesFor true c r pt tl with
                  | none =>
                      cases h2 : sidesFor false c r pt tl with
                      | none => rfl
                      | some t2 => rw [h1, h2] at ih; simp at ih
                  | some t1 =>
                      cases h2 : sidesFor false c r pt tl with
                      | none => rw [h1, h2] at ih; simp at ih
                      | some t2 =>
                          rw [h1, h2] at ih
                          simp only [Option.map_some'] at ih
                          injection ih with ih
                          simp only [Option.map_some', Option.some.injEq,
                            kernList_sideComment, kernList_rapidY, kernList_append, hk, ih]

theorem profileBlock_kern (c : Config) (r : Resolved) (p : ProfileSpec) :
    (profileBlock true c r p).map kernList = (profileBlock false c r p).map kernList := by
  unfold profileBlock
  have hk := sidesFor_kern c r p.ptype (p.sections.getD [])
  cases h1 : sidesFor true c r p.ptype (p.sections.getD []) with
  | none =>
      cases h2 : sidesFor false c r p.ptype (p.sections.getD []) with
      | none => rfl
      | some b2 => rw [h1, h2] at hk; simp at hk
  | some b1 =>
      cases h2 : sidesFor false c r p.ptype (p.sections.getD []) with
      | none => rw [h1, h2] at hk; simp at hk
      | some b2 =>
          rw [h1, h2] at hk
          simp only [Option.map_some'] at hk
          injection hk with hk
          simp only [Option.map_some', Option.some.injEq, kernList_profileComment,
            kernList_rapidX, kernList_rapidZ, kernList_rapidY, hk]

theorem profilesLoop_kern (c : Config) (r : Resolved) : ∀ ps,
    (profilesLoop true c r ps).map kernList = (profilesLoop false c r ps).map kernList := by
  intro ps
  induction ps with
  | nil => rfl
  | cons p tl ih =>
      simp only [profilesLoop]
      have hb := profileBlock_kern c r p
      cases h1 : profileBlock true c r p with
      | none =>
          cases h2 : profileBlock false c r p with
          | none => rfl
          | some b2 => rw [h1, h2] at hb; simp at hb
      | some b1 =>
          cases h2 : profileBlock false c r p with
          | none => rw [h1, h2] at hb; simp at hb
          | some b2 =>
              rw [h1, h2] at hb
              simp only [Option.map_some'] at hb
              injection hb with hb
              cases t1 : profilesLoop true c r tl with
              | none =>
                  cases t2 : profilesLoop false c r tl with
                  | none => rfl
                  | some l2 => rw [t1, t2] at ih; simp at ih
              | some l1 =>
                  cases t2 : profilesLoop false c r tl with
                  | none => rw [t1, t2] at ih; simp at ih
                  | some l2 =>
                      rw [t1, t2] at ih
                      simp only [Option.map_some'] at ih
                      injection ih with ih
                      simp only [Option.map_some', Option.some.injEq,
                        kernList_append, hb, ih]

theorem kern_preamble (b : Bool) (r : Resolved) (ps : List ProfileSpec) :
    kernList (preambleLines b r ps) = [MoveKey.rapidToZ r.safe_z] := by
  cases b <;> cases hco : r.coolant_on <;>
    simp [preambleLines, hco, kernList_append, kernList_titleInstr, kernList_comment,
      kernList_frame, kernList_spindleOn, kernList_toolComment, kernList_rapidZ, kernList_nil]

theorem kern_postamble (b : Bool) (r : Resolved) :
    kernList (postambleLines b r) = [] := by
  cases b <;> cases hco : r.coolant_on <;>
    simp [postambleLines, hco, kernList_append, kernList_frame, kernList_nil]

/-- C8: flipping `tap_mode` never changes the drilling decisions: the
motion content of the generated program (move kinds, unrounded destination
coordinates, drilling feed rates, dwell times, hence also the number of
peck iterations) is identical in both dialects; only comments, framing
lines and phrasing differ. -/
theorem C8_tap_formatting_only (ps : List ProfileSpec) (c : Config) :
    motionKernel (generate_gcode ps { c with tap_mode := true }) =
      motionKernel (generate_gcode ps { c with tap_mode := false }) := by
  simp only [generate_gcode, motionKernel]
  rw [show resolve { c with tap_mode := true } = resolve c from rfl,
    show resolve { c with tap_mode := false } = resolve c from rfl,
    profilesLoop_set_tap true true c (resolve c),
    profilesLoop_set_tap false false c (resolve c)]
  have hk := profilesLoop_kern c (resolve c) ps
  cases h1 : profilesLoop true c (resolve c) ps with
  | none =>
      cases h2 : profilesLoop false c (resolve c) ps with
      | none => rfl
      | some l2 => rw [h1, h2] at hk; simp at hk
  | some l1 =>
      cases h2 : profilesLoop false c (resolve c) ps with
      | none => rw [h1, h2] at hk; simp at hk
      | some l2 =>
          rw [h1, h2] at hk
          simp only [Option.map_some'] at hk
          injection hk with hk
          simp only [Option.map_some', Option.some.injEq, kernList_append,
            kern_preamble, kern_postamble, hk]
